import Mathlib

/-!
Shallow embedding of the `libmdbx-bindings` typed storage layer:
the codec traits of `src/traits.rs`, the transaction layer of
`src/implementation/native/tx.rs`, the table registry macros of
`src/tables.rs` and the provider of `src/provider.rs`, together with
proofs about the specified properties.

External collaborators (the rkyv archive codec, the zstd compressor and
the MDBX engine itself) are out of scope for the repository and are
modelled abstractly: rkyv and zstd as function records whose documented
contracts appear as explicit hypotheses, the engine as the black-box
byte-oriented state the spec describes in its engine-boundary section.
-/

/-- Model of a raw byte sequence. -/
abbrev Bytes := List Nat

/-- Model of an engine sub-database handle (`ffi::DBI`). -/
abbrev DBI := Nat

/-- Model of an opaque engine-level error payload (the `e.into()` info). -/
abbrev EngineErr := Nat

/-- Model of `reth_db::TableType`. -/
inductive TableType where
  | Table
  | DupSort
deriving DecidableEq, Repr

/-- Model of `libmdbx_native::DatabaseFlags` as used by `create_table`:
either the default flags or `DUP_SORT`. -/
inductive DatabaseFlags where
  | defaultFlags
  | DUP_SORT
deriving DecidableEq, Repr

/-- Model of `reth_db::DatabaseWriteOperation` (the variants used here). -/
inductive DatabaseWriteOperation where
  | Put
  | CursorAppend
deriving DecidableEq, Repr

/-- Model of `reth_storage_errors::db::DatabaseWriteError`: a structured
write error carrying the engine info, the operation kind, the table name
and the encoded key.  Note that the type has no field for the value. -/
structure DatabaseWriteError where
  info : EngineErr
  operation : DatabaseWriteOperation
  table_name : String
  key : Bytes
deriving DecidableEq, Repr

/-- Model of the `reth_db::DatabaseError` variants this layer produces. -/
inductive DatabaseError where
  | InitTx (info : EngineErr)
  | Read (info : EngineErr)
  | Write (e : DatabaseWriteError)
  | Delete (info : EngineErr)
  | Commit (info : EngineErr)
  | CreateTable (info : EngineErr)
  | InitCursor (info : EngineErr)
  | Stats (info : EngineErr)
  | Decode
deriving DecidableEq, Repr

/-- Result of running a piece of Rust code that may panic (`unwrap` /
`expect` on a failed result), may return an error value, or may succeed. -/
inductive PResult (α : Type) where
  | panicked (msg : String)
  | err (e : DatabaseError)
  | ok (v : α)
deriving DecidableEq, Repr

/-- Model of the rkyv archive codec attached to a type `α`:
`toBytes` is `rkyv::to_bytes` (total — the source unwraps it and the
library contract says serialization of an in-memory value succeeds), and
`fromArchived` is `rkyv::archived_root` followed by
`Deserialize::deserialize` into `Infallible` — an unchecked
reinterpretation of the buffer that is total and never reports an error. -/
structure RkyvCodec (α : Type) where
  toBytes : α → Bytes
  fromArchived : Bytes → α

/-- Documented contract of the rkyv codec: reinterpreting the bytes it
produced for `v` yields `v` back. -/
def RkyvCodec.RoundTrips {α : Type} (c : RkyvCodec α) : Prop :=
  ∀ v : α, c.fromArchived (c.toBytes v) = v

/-- Model of the zstd compressor: `encodeAll` is `zstd::encode_all`
(total) and `decodeAll` is `zstd::decode_all`, which returns an
`io::Result` and fails on corrupt input. -/
structure ZstdImpl where
  encodeAll : Bytes → Bytes
  decodeAll : Bytes → Except Unit Bytes

/-- Documented contract of zstd: decompression of its own output is
lossless. -/
def ZstdImpl.Lossless (z : ZstdImpl) : Prop :=
  ∀ b : Bytes, z.decodeAll (z.encodeAll b) = Except.ok b

/-- Model of `WrapEncodable::encode_wrapped` (src/traits.rs): rkyv-encode
the value and append the bytes to the output buffer (modelled as
returning the appended bytes). -/
def encode_wrapped {α : Type} (c : RkyvCodec α) (v : α) : Bytes :=
  c.toBytes v

/-- Model of `WrapDecodable::decode_wrapped` (src/traits.rs): unsafely
reinterpret the buffer as the archived root and deserialize it.  The
source always returns `Ok(..)`: neither `archived_root` nor the
`Infallible` deserialization can report an error. -/
def decode_wrapped {α : Type} (c : RkyvCodec α) (buf : Bytes) : Except Unit α :=
  Except.ok (c.fromArchived buf)

/-- Model of `WrapCompress::compress_to_buf_wrapped` (src/traits.rs):
rkyv-encode, then `zstd::encode_all(.., 0).unwrap()`, then append. -/
def compress_to_buf_wrapped {α : Type} (c : RkyvCodec α) (z : ZstdImpl) (v : α) : Bytes :=
  z.encodeAll (encode_wrapped c v)

/-- Model of `WrapDecompress::decompress_wrapped` (src/traits.rs):
`zstd::decode_all(..).unwrap()` — a panic when zstd reports corrupt
input — then `decode_wrapped`, mapping a decode error (which cannot
occur) to `DatabaseError::Decode`. -/
def decompress_wrapped {α : Type} (c : RkyvCodec α) (z : ZstdImpl) (value : Bytes) :
    PResult α :=
  match z.decodeAll value with
  | Except.error _ => PResult.panicked "called unwrap on an Err value"
  | Except.ok decompressed =>
    match decode_wrapped c decompressed with
    | Except.error _ => PResult.err DatabaseError.Decode
    | Except.ok v => PResult.ok v

/-- Model of `WrapEncode::encode_key_wrapped` (src/traits.rs): encode the
key into a fresh buffer and return the bytes. -/
def encode_key_wrapped {α : Type} (c : RkyvCodec α) (v : α) : Bytes :=
  encode_wrapped c v

/-- Model of `WrapDecode::decode_wrapped_key` (src/traits.rs): decode and
map a decode error (which cannot occur) to `DatabaseError::Decode`. -/
def decode_wrapped_key {α : Type} (c : RkyvCodec α) (value : Bytes) :
    Except DatabaseError α :=
  match decode_wrapped c value with
  | Except.error _ => Except.error DatabaseError.Decode
  | Except.ok v => Except.ok v

/-- Concrete rkyv codec on `Nat` used to witness satisfiability of the
codec contracts: a value is archived as a one-element byte list. -/
def natCodec : RkyvCodec Nat :=
  { toBytes := fun n => [n], fromArchived := fun b => b.headD 0 }

/-- Concrete zstd model that stores the input unchanged and decodes
totally; it satisfies the lossless contract. -/
def zstdId : ZstdImpl :=
  { encodeAll := fun b => b, decodeAll := fun b => Except.ok b }

/-- Concrete zstd model that rejects the input `[7]` as corrupt (as real
zstd rejects byte strings lacking a valid frame), and otherwise stores
the input unchanged. -/
def zstdRejecting : ZstdImpl :=
  { encodeAll := fun b => b
    decodeAll := fun b => if b = [7] then Except.error () else Except.ok b }

/-- C1: for every value accepted by a type's codec, the full storage
pipeline round-trips: `decompress_wrapped` after `compress_to_buf_wrapped`
yields the value back, and likewise `decode_wrapped_key` after
`encode_key_wrapped`, assuming the documented contracts of the external
rkyv and zstd libraries. -/
theorem c1_pipeline_round_trip {α : Type} (c : RkyvCodec α) (z : ZstdImpl)
    (hc : c.RoundTrips) (hz : z.Lossless) (v : α) :
    decompress_wrapped c z (compress_to_buf_wrapped c z v) = PResult.ok v ∧
    decode_wrapped_key c (encode_key_wrapped c v) = Except.ok v := by
  constructor
  · unfold decompress_wrapped compress_to_buf_wrapped
    rw [hz (encode_wrapped c v)]
    simp [decode_wrapped, encode_wrapped, hc v]
  · simp [decode_wrapped_key, decode_wrapped, encode_key_wrapped, encode_wrapped, hc v]

/-- Witness for C1: the contracts are satisfiable (by the concrete `Nat`
codec and identity zstd model) and the round-trip holds at the value 3. -/
theorem c1_pipeline_round_trip_witness :
    natCodec.RoundTrips ∧ zstdId.Lossless ∧
    decompress_wrapped natCodec zstdId (compress_to_buf_wrapped natCodec zstdId 3) =
      PResult.ok 3 ∧
    decode_wrapped_key natCodec (encode_key_wrapped natCodec 3) = Except.ok 3 :=
  ⟨fun _ => rfl, fun _ => rfl,
   (c1_pipeline_round_trip natCodec zstdId (fun _ => rfl) (fun _ => rfl) 3).1,
   (c1_pipeline_round_trip natCodec zstdId (fun _ => rfl) (fun _ => rfl) 3).2⟩

/-- C2 counterexample: on the corrupt compressed input `[7]` the source's
`decompress_wrapped` panics (it unwraps the zstd error) instead of
returning `DatabaseError::Decode`, and on the truncated input `[]` the
source's `decode_wrapped` succeeds (unchecked reinterpretation) instead
of failing with a decode error. -/
theorem c2_decode_error_counterexample :
    decompress_wrapped natCodec zstdRejecting [7] ≠
      PResult.err DatabaseError.Decode ∧
    decompress_wrapped natCodec zstdRejecting [7] =
      PResult.panicked "called unwrap on an Err value" ∧
    decode_wrapped natCodec [] = Except.ok 0 := by
  refine ⟨?_, ?_, rfl⟩ <;> decide

/-- C2 as amended: `decode_wrapped` (and hence `decode_wrapped_key`)
never fails — on truncated or malformed bytes it returns `Ok` of the
unchecked reinterpretation; `decompress_wrapped` panics on corrupt
compressed input (it unwraps the zstd error) rather than returning
`DecodeError`; and the `DatabaseError::Decode` branch of
`decompress_wrapped` is unreachable: the result is a panic or a success,
never an error value. -/
theorem c2_decode_never_fails_decompress_panics {α : Type}
    (c : RkyvCodec α) (z : ZstdImpl) (buf : Bytes) :
    decode_wrapped c buf = Except.ok (c.fromArchived buf) ∧
    decode_wrapped_key c buf = Except.ok (c.fromArchived buf) ∧
    (∀ e : Unit, z.decodeAll buf = Except.error e →
      decompress_wrapped c z buf = PResult.panicked "called unwrap on an Err value") ∧
    (∀ d : Bytes, z.decodeAll buf = Except.ok d →
      decompress_wrapped c z buf = PResult.ok (c.fromArchived d)) ∧
    (∀ e : DatabaseError, decompress_wrapped c z buf ≠ PResult.err e) := by
  refine ⟨rfl, rfl, ?_, ?_, ?_⟩
  · intro e he
    simp [decompress_wrapped, he]
  · intro d hd
    simp [decompress_wrapped, hd, decode_wrapped]
  · intro e
    unfold decompress_wrapped
    cases hz : z.decodeAll buf with
    | error _ => simp
    | ok d => simp [decode_wrapped]

/-- Witness for C2's amended theorem at the concrete codec, the rejecting
zstd model and the input `[7]`. -/
theorem c2_decode_never_fails_decompress_panics_witness :
    decode_wrapped natCodec [7] = Except.ok 7 ∧
    decompress_wrapped natCodec zstdRejecting [7] =
      PResult.panicked "called unwrap on an Err value" ∧
    decompress_wrapped natCodec zstdId [7] = PResult.ok 7 ∧
    decompress_wrapped natCodec zstdRejecting [7] ≠
      PResult.err DatabaseError.Decode :=
  ⟨(c2_decode_never_fails_decompress_panics natCodec zstdRejecting [7]).1,
   (c2_decode_never_fails_decompress_panics natCodec zstdRejecting [7]).2.2.1 () rfl,
   (c2_decode_never_fails_decompress_panics natCodec zstdId [7]).2.2.2.1 [7] rfl,
   (c2_decode_never_fails_decompress_panics natCodec zstdRejecting [7]).2.2.2.2
     DatabaseError.Decode⟩

/-- Model of the raw MDBX transaction state at the engine boundary the
spec describes: named sub-databases (with the creation flags they were
given and their handle), the key/value store of each handle, and a
switch modelling an engine that rejects write operations (for example a
full map), so the error paths of the layer are reachable. -/
structure EngineTx where
  dbs : List (String × DBI × DatabaseFlags)
  store : List ((DBI × Bytes) × Bytes)
  failWrites : Option EngineErr
deriving DecidableEq, Repr

/-- Engine point lookup by raw bytes (`Transaction::get`). -/
def EngineTx.engineGet (tx : EngineTx) (dbi : DBI) (key : Bytes) : Option Bytes :=
  (tx.store.find? (fun e => e.1 = (dbi, key))).map (fun e => e.2)

/-- Engine upsert by raw bytes (`Transaction::put` with `UPSERT`):
overwrites any existing entry for the key. -/
def EngineTx.enginePut (tx : EngineTx) (dbi : DBI) (key value : Bytes) :
    Except EngineErr EngineTx :=
  match tx.failWrites with
  | some e => Except.error e
  | none =>
    Except.ok { tx with
      store := ((dbi, key), value) :: tx.store.filter (fun e => ¬ e.1 = (dbi, key)) }

/-- Engine delete by raw bytes (`Transaction::del`): with no expected
value it removes the key's entry, with an expected value it removes only
an exactly matching entry; returns whether a deletion occurred. -/
def EngineTx.engineDel (tx : EngineTx) (dbi : DBI) (key : Bytes) (data : Option Bytes) :
    Except EngineErr (Bool × EngineTx) :=
  match tx.failWrites with
  | some e => Except.error e
  | none =>
    match data with
    | none =>
      Except.ok ((tx.store.find? (fun e => e.1 = (dbi, key))).isSome,
        { tx with store := tx.store.filter (fun e => ¬ e.1 = (dbi, key)) })
    | some d =>
      Except.ok ((tx.store.find? (fun e => e = ((dbi, key), d))).isSome,
        { tx with store := tx.store.filter (fun e => ¬ e = ((dbi, key), d)) })

/-- Engine open of an existing named sub-database (`Transaction::open_db`):
fails when no sub-database of that name exists. -/
def EngineTx.engineOpenDb (tx : EngineTx) (name : String) : Except EngineErr DBI :=
  match tx.dbs.find? (fun e => e.1 = name) with
  | some e => Except.ok e.2.1
  | none => Except.error 0

/-- Engine create-or-open of a named sub-database
(`Transaction::create_db`): reuses an existing sub-database of that name,
otherwise creates a fresh one with the given flags (a write operation,
so it is rejected when the engine rejects writes). -/
def EngineTx.engineCreateDb (tx : EngineTx) (name : String) (flags : DatabaseFlags) :
    Except EngineErr EngineTx :=
  if (tx.dbs.find? (fun e => e.1 = name)).isSome then Except.ok tx
  else
    match tx.failWrites with
    | some e => Except.error e
    | none => Except.ok { tx with dbs := tx.dbs ++ [(name, tx.dbs.length, flags)] }

/-- Model of a table set generated by the `tables!` macro
(src/tables.rs): the ordered list of member table names.  The member at
position `i` has discriminant `i`, so `as_usize` is the position and
`NUM_TABLES` is the length. -/
structure TableSetM where
  tableNames : List String
deriving DecidableEq, Repr

/-- Model of `TableSet::NUM_TABLES`. -/
def TableSetM.numTables (S : TableSetM) : Nat :=
  S.tableNames.length

/-- Model of the generated `FromStr` impl (src/tables.rs): match the
string against each member's `NAME` in declaration order, yielding the
member (as its `as_usize` position), or `Err("Unknown table")`. -/
def TableSetM.from_str (S : TableSetM) (s : String) : Except String Nat :=
  match S.tableNames.findIdx? (fun n => n = s) with
  | some i => Except.ok i
  | none => Except.error "Unknown table"

/-- Model of `LibmdbxTx` (src/implementation/native/tx.rs): the inner
engine transaction and the table-handle cache `db_handles`, a vector of
`NUM_TABLES` optional handles. -/
structure LibmdbxTxM where
  inner : EngineTx
  db_handles : List (Option DBI)
deriving DecidableEq, Repr

/-- Model of `LibmdbxTx::get_dbi` (tx.rs lines 68-84): resolve the table
name through the set's `FromStr` — `.expect(..)` panics when the name is
not a member — index the handle cache at `as_usize` — `.expect(..)`
panics when the slot is missing — and on a cache miss open the
sub-database, store the handle and return it; an engine open failure is
returned as `DatabaseError::InitCursor`. -/
def LibmdbxTxM.get_dbi (S : TableSetM) (tx : LibmdbxTxM) (tname : String) :
    PResult (DBI × LibmdbxTxM) :=
  match S.from_str tname with
  | Except.error _ => PResult.panicked "Requested table should be part of Tables."
  | Except.ok idx =>
    match tx.db_handles.get? idx with
    | none => PResult.panicked "should exist"
    | some (some dbi) => PResult.ok (dbi, tx)
    | some none =>
      match tx.inner.engineOpenDb tname with
      | Except.error e => PResult.err (DatabaseError.InitCursor e)
      | Except.ok dbi =>
        PResult.ok (dbi, { tx with db_handles := tx.db_handles.set idx (some dbi) })

/-- Modelled from the spec: `decode_one` lives in
`src/implementation/native/utils.rs`, which is absent from the sources;
per the spec's read path, it decompresses and decodes the stored value
bytes with the table's value codec and surfaces a failure as
`DatabaseError::Decode`. -/
def decode_one {V : Type} (decompress : Bytes → Option V) (raw : Bytes) :
    Except DatabaseError V :=
  match decompress raw with
  | some v => Except.ok v
  | none => Except.error DatabaseError.Decode

/-- Model of `LibmdbxTx::get_by_encoded_key` (tx.rs lines 105-114):
resolve the handle, do the engine point lookup, and map a found raw
value through `decode_one`, transposing so a decode error surfaces and
an absent key yields `Ok(None)`. -/
def LibmdbxTxM.get_by_encoded_key {V : Type} (S : TableSetM)
    (decompress : Bytes → Option V) (tx : LibmdbxTxM) (tname : String) (key : Bytes) :
    PResult (Option V × LibmdbxTxM) :=
  match tx.get_dbi S tname with
  | PResult.panicked m => PResult.panicked m
  | PResult.err e => PResult.err e
  | PResult.ok (dbi, tx1) =>
    match tx1.inner.engineGet dbi key with
    | none => PResult.ok (none, tx1)
    | some raw =>
      match decode_one decompress raw with
      | Except.error e => PResult.err e
      | Except.ok v => PResult.ok (some v, tx1)

/-- Model of `LibmdbxTx::get` (tx.rs lines 101-103): encode the key and
delegate to `get_by_encoded_key`. -/
def LibmdbxTxM.get {K V : Type} (S : TableSetM) (encodeKey : K → Bytes)
    (decompress : Bytes → Option V) (tx : LibmdbxTxM) (tname : String) (k : K) :
    PResult (Option V × LibmdbxTxM) :=
  tx.get_by_encoded_key S decompress tname (encodeKey k)

/-- Model of `LibmdbxTx::put` (tx.rs lines 155-174): encode the key,
compress the value, resolve the handle and upsert; an engine write
failure is wrapped into a `DatabaseWriteError` carrying the operation
kind `Put`, `T::NAME` and the encoded key. -/
def LibmdbxTxM.put {K V : Type} (S : TableSetM) (encodeKey : K → Bytes)
    (compressVal : V → Bytes) (tx : LibmdbxTxM) (tname : String) (k : K) (v : V) :
    PResult LibmdbxTxM :=
  let key := encodeKey k
  let value := compressVal v
  match tx.get_dbi S tname with
  | PResult.panicked m => PResult.panicked m
  | PResult.err e => PResult.err e
  | PResult.ok (dbi, tx1) =>
    match tx1.inner.enginePut dbi key value with
    | Except.error e =>
      PResult.err (DatabaseError.Write
        { info := e, operation := DatabaseWriteOperation.Put,
          table_name := tname, key := key })
    | Except.ok inner1 => PResult.ok { tx1 with inner := inner1 }

/-- Model of `LibmdbxTx::delete` (tx.rs lines 176-191): compress the
optional expected value, resolve the handle and delete; an engine
failure is wrapped as `DatabaseError::Delete` with only the engine info. -/
def LibmdbxTxM.delete {K V : Type} (S : TableSetM) (encodeKey : K → Bytes)
    (compressVal : V → Bytes) (tx : LibmdbxTxM) (tname : String) (k : K)
    (value : Option V) : PResult (Bool × LibmdbxTxM) :=
  let data := value.map compressVal
  match tx.get_dbi S tname with
  | PResult.panicked m => PResult.panicked m
  | PResult.err e => PResult.err e
  | PResult.ok (dbi, tx1) =>
    match tx1.inner.engineDel dbi (encodeKey k) data with
    | Except.error e => PResult.err (DatabaseError.Delete e)
    | Except.ok (b, inner1) => PResult.ok (b, { tx1 with inner := inner1 })

/-- Model of `LibmdbxTx::create_table` (tx.rs lines 42-53): map the
declared table type to engine creation flags — `DUP_SORT` for a
duplicate-sorted table, default flags otherwise — and create the
sub-database, wrapping failure as `DatabaseError::CreateTable`. -/
def LibmdbxTxM.create_table (tx : LibmdbxTxM) (tname : String) (tt : TableType) :
    Except DatabaseError LibmdbxTxM :=
  let flags := match tt with
    | TableType.Table => DatabaseFlags.defaultFlags
    | TableType.DupSort => DatabaseFlags.DUP_SORT
  match tx.inner.engineCreateDb tname flags with
  | Except.error e => Except.error (DatabaseError.CreateTable e)
  | Except.ok inner1 => Except.ok { tx with inner := inner1 }

/-- Model of the per-member `create_table` of the `tables!` macro
(src/tables.rs lines 52-62) composed over `Self::ALL` by the generated
`TableSet::create_tables` (lines 89-97): each member is created in
declaration order, stopping at the first error.  The macro's generated
`table_type` is the constant `TableType::Table` (lines 43-50), so every
member is created as a plain table. -/
def setCreateTablesGo : List String → LibmdbxTxM → Except DatabaseError LibmdbxTxM
  | [], tx => Except.ok tx
  | n :: rest, tx =>
    match tx.create_table n TableType.Table with
    | Except.error e => Except.error e
    | Except.ok tx1 => setCreateTablesGo rest tx1

/-- Model of the generated `TableSet::create_tables` (src/tables.rs):
fold the per-member creation over all members. -/
def TableSetM.create_tables (S : TableSetM) (tx : LibmdbxTxM) :
    Except DatabaseError LibmdbxTxM :=
  setCreateTablesGo S.tableNames tx

/-- Model of the table descriptor produced by the `db_table!` macro
(src/tables.rs lines 107-133) for a declared table name: the macro's
single arm hard-codes `DUPSORT = false` and a `TableDet::table_type` of
`TableType::Table`. -/
structure TableDescr where
  name : String
  dupsort : Bool
  tableType : TableType
deriving DecidableEq, Repr

/-- Model of a `db_table!((T) | K, V)` declaration: the descriptor bound
to the declared name. -/
def dbTableDecl (name : String) : TableDescr :=
  { name := name, dupsort := false, tableType := TableType.Table }

/-- Model of the opened environment held by `LibmdbxProvider`: the
committed engine state, plus switches modelling an engine that rejects
`begin_rw_txn` / `begin_ro_txn` or `commit` (so those error paths are
reachable). -/
structure DatabaseEnvM where
  committed : EngineTx
  failBegin : Option EngineErr
  failCommit : Option EngineErr
deriving DecidableEq, Repr

/-- Model of `LibmdbxTx::new_rw_tx` (tx.rs lines 55-63): begin an engine
write transaction — a failure surfaces as `DatabaseError::InitTx` — and
allocate a handle cache of `NUM_TABLES` empty slots. -/
def new_rw_tx (S : TableSetM) (env : DatabaseEnvM) :
    Except DatabaseError LibmdbxTxM :=
  match env.failBegin with
  | some e => Except.error (DatabaseError.InitTx e)
  | none =>
    Except.ok { inner := env.committed,
                db_handles := List.replicate S.numTables none }

/-- Model of `LibmdbxTx::new_ro_tx` (tx.rs lines 29-38): identical
construction against the current committed snapshot. -/
def new_ro_tx (S : TableSetM) (env : DatabaseEnvM) :
    Except DatabaseError LibmdbxTxM :=
  match env.failBegin with
  | some e => Except.error (DatabaseError.InitTx e)
  | none =>
    Except.ok { inner := env.committed,
                db_handles := List.replicate S.numTables none }

/-- Model of `LibmdbxTx::commit` (tx.rs lines 116-121) at the
environment level: commit the transaction's engine state, returning the
engine-reported wrote-anything flag, or `DatabaseError::Commit`; on
success the environment's committed state becomes the transaction's. -/
def commitTx (env : DatabaseEnvM) (tx : LibmdbxTxM) :
    Except DatabaseError (Bool × DatabaseEnvM) :=
  match env.failCommit with
  | some e => Except.error (DatabaseError.Commit e)
  | none =>
    Except.ok (decide (tx.inner ≠ env.committed), { env with committed := tx.inner })

/-- Model of `LibmdbxProvider::create_tables` (src/provider.rs lines
73-80): open one write transaction, run the set's `create_tables` inside
it, and commit; any error propagates and leaves the environment's
committed state untouched. -/
def provider_create_tables (S : TableSetM) (env : DatabaseEnvM) :
    Except DatabaseError DatabaseEnvM :=
  match new_rw_tx S env with
  | Except.error e => Except.error e
  | Except.ok tx =>
    match S.create_tables tx with
    | Except.error e => Except.error e
    | Except.ok tx1 =>
      match commitTx env tx1 with
      | Except.error e => Except.error e
      | Except.ok (_, env1) => Except.ok env1

/-- Outcome of a provider-scoped transaction run: the returned result,
the environment afterwards (unchanged unless a commit happened), and the
number of engine transactions begun during the run. -/
structure RunOutcome (R : Type) where
  result : Except DatabaseError R
  env : DatabaseEnvM
  txBegun : Nat
deriving Repr

/-- Model of `LibmdbxProvider::write` (src/provider.rs lines 84-93): open
one write transaction, invoke the closure with it (the closure returns
its result and the transaction state it leaves behind), commit
unconditionally, and wrap the closure's result in `Ok`; a begin or
commit failure propagates as `Err` and leaves the committed state
untouched. -/
def provider_write {R : Type} (S : TableSetM) (env : DatabaseEnvM)
    (f : LibmdbxTxM → R × LibmdbxTxM) : RunOutcome R :=
  match new_rw_tx S env with
  | Except.error e => { result := Except.error e, env := env, txBegun := 1 }
  | Except.ok tx =>
    let (res, tx1) := f tx
    match commitTx env tx1 with
    | Except.error e => { result := Except.error e, env := env, txBegun := 1 }
    | Except.ok (_, env1) => { result := Except.ok res, env := env1, txBegun := 1 }

/-- Model of `LibmdbxProvider::write_async` (src/provider.rs lines
97-106): the body is that of `write` with the closure's result awaited
before the commit; in this pure embedding the suspension is transparent,
so the definition mirrors the same open-invoke-commit-propagate steps. -/
def provider_write_async {R : Type} (S : TableSetM) (env : DatabaseEnvM)
    (f : LibmdbxTxM → R × LibmdbxTxM) : RunOutcome R :=
  match new_rw_tx S env with
  | Except.error e => { result := Except.error e, env := env, txBegun := 1 }
  | Except.ok tx =>
    let (res, tx1) := f tx
    match commitTx env tx1 with
    | Except.error e => { result := Except.error e, env := env, txBegun := 1 }
    | Except.ok (_, env1) => { result := Except.ok res, env := env1, txBegun := 1 }

/-- Model of `LibmdbxProvider::read` (src/provider.rs lines 108-117):
open one read transaction, invoke the closure, release ("commit") the
snapshot, and wrap the closure's result in `Ok`. -/
def provider_read {R : Type} (S : TableSetM) (env : DatabaseEnvM)
    (f : LibmdbxTxM → R × LibmdbxTxM) : RunOutcome R :=
  match new_ro_tx S env with
  | Except.error e => { result := Except.error e, env := env, txBegun := 1 }
  | Except.ok tx =>
    let (res, tx1) := f tx
    match commitTx env tx1 with
    | Except.error e => { result := Except.error e, env := env, txBegun := 1 }
    | Except.ok (_, env1) => { result := Except.ok res, env := env1, txBegun := 1 }

/-- Model of the record type `Thing { hi: String, this: f64 }` of the
repository's test program (src/tests/src/main.rs).  The `this` field is
an `f64` that only passes through the codec opaquely; it is carried here
as an integer standing for the exactly-representable double 1220.0. -/
structure ThingM where
  hi : String
  this : Int
deriving DecidableEq, Repr

/-- Concrete injective byte encoding of an integer used by the toy
archive codec for `ThingM`. -/
def intEnc : Int → Bytes
  | Int.ofNat n => [0, n]
  | Int.negSucc n => [1, n]

/-- Concrete partial inverse of `intEnc`. -/
def intDec : Bytes → Option Int
  | [0, n] => some (Int.ofNat n)
  | [1, n] => some (Int.negSucc n)
  | _ => none

/-- Concrete archive encoding of `ThingM` (a stand-in for the rkyv
archive layout): the string's length, its character codes, then the
encoded integer. -/
def thingEnc (t : ThingM) : Bytes :=
  t.hi.length :: (t.hi.toList.map Char.toNat) ++ intEnc t.this

/-- Concrete partial inverse of `thingEnc`. -/
def thingDec (b : Bytes) : Option ThingM :=
  match b with
  | [] => none
  | n :: rest =>
    match intDec (rest.drop n) with
    | none => none
    | some i =>
      if (rest.take n).length = n then
        some { hi := String.mk ((rest.take n).map Char.ofNat), this := i }
      else none

/-- Concrete rkyv-codec record for `ThingM` built from `thingEnc`. -/
def thingCodec : RkyvCodec ThingM :=
  { toBytes := thingEnc,
    fromArchived := fun b => (thingDec b).getD { hi := "", this := 0 } }

/-- Value-compression function of the scenario table: the source pipeline
`compress_to_buf_wrapped` at the concrete codec and zstd model. -/
def thingCompress (t : ThingM) : Bytes :=
  compress_to_buf_wrapped thingCodec zstdId t

/-- Value-decompression function fed to `decode_one` in the scenario:
zstd decompression followed by the archive decoding. -/
def thingDecompress (b : Bytes) : Option ThingM :=
  match zstdId.decodeAll b with
  | Except.error _ => none
  | Except.ok d => thingDec d

/-- Model of the reth `Encode` impl for the `u8` key of the scenario
table: a `u8` encodes as its single big-endian byte. -/
def u8enc (k : Fin 256) : Bytes :=
  [k.val]

/-- Model of the test program's registry `tables!(MyTables, 1,
[EmptyStrategyTable])`. -/
def myTablesM : TableSetM :=
  { tableNames := ["EmptyStrategyTable"] }

/-- Empty freshly created environment before table materialization. -/
def envEmpty : DatabaseEnvM :=
  { committed := { dbs := [], store := [], failWrites := none },
    failBegin := none, failCommit := none }

/-- Environment after `MyTables` has been materialized. -/
def env0 : DatabaseEnvM :=
  { committed := { dbs := [("EmptyStrategyTable", 0, DatabaseFlags.defaultFlags)],
                   store := [], failWrites := none },
    failBegin := none, failCommit := none }

/-- The record the scenario stores: `{hi: "to me", this: 1220.0}`. -/
def thing : ThingM :=
  { hi := "to me", this := 1220 }

/-- Closure for the scenario write: `txn.put(table, 100, thing)`. -/
def putClosure (tx : LibmdbxTxM) : PResult Unit × LibmdbxTxM :=
  match LibmdbxTxM.put myTablesM u8enc thingCompress tx "EmptyStrategyTable"
      (100 : Fin 256) thing with
  | PResult.ok tx1 => (PResult.ok (), tx1)
  | PResult.err e => (PResult.err e, tx)
  | PResult.panicked m => (PResult.panicked m, tx)

/-- Closure for the scenario reads: `txn.get(table, k)`. -/
def getClosure (k : Fin 256) (tx : LibmdbxTxM) :
    PResult (Option ThingM) × LibmdbxTxM :=
  match LibmdbxTxM.get myTablesM u8enc thingDecompress tx "EmptyStrategyTable" k with
  | PResult.ok (v, tx1) => (PResult.ok v, tx1)
  | PResult.err e => (PResult.err e, tx)
  | PResult.panicked m => (PResult.panicked m, tx)

/-- Environment after the scenario write has committed. -/
def env1 : DatabaseEnvM :=
  (provider_write myTablesM env0 putClosure).env

/-- C3: once the table handle is resolved, `get` returns `Ok(Some v)`
when the engine holds an entry whose bytes decode to `v`, `Ok(None)`
when no entry exists, and surfaces a decode failure as
`DatabaseError::Decode`, never as `Ok(None)`; concretely, after
`put(table, 100, {hi:"to me", this:1220.0})` and commit, a fresh read
transaction's `get(table, 100)` returns `Some` of that record and
`get(table, 101)` returns `None`. -/
theorem c3_get_semantics {V : Type} (S : TableSetM) (dec : Bytes → Option V)
    (tx tx1 : LibmdbxTxM) (tname : String) (key : Bytes) (dbi : DBI)
    (hdbi : tx.get_dbi S tname = PResult.ok (dbi, tx1)) :
    (∀ raw v, tx1.inner.engineGet dbi key = some raw → dec raw = some v →
      tx.get_by_encoded_key S dec tname key = PResult.ok (some v, tx1)) ∧
    (tx1.inner.engineGet dbi key = none →
      tx.get_by_encoded_key S dec tname key = PResult.ok (none, tx1)) ∧
    (∀ raw, tx1.inner.engineGet dbi key = some raw → dec raw = none →
      tx.get_by_encoded_key S dec tname key = PResult.err DatabaseError.Decode) ∧
    provider_create_tables myTablesM envEmpty = Except.ok env0 ∧
    (provider_write myTablesM env0 putClosure).result = Except.ok (PResult.ok ()) ∧
    (provider_read myTablesM env1 (getClosure 100)).result =
      Except.ok (PResult.ok (some thing)) ∧
    (provider_read myTablesM env1 (getClosure 101)).result =
      Except.ok (PResult.ok none) := by
  refine ⟨?_, ?_, ?_, ?_, ?_, ?_, ?_⟩
  · intro raw v hraw hv
    simp [LibmdbxTxM.get_by_encoded_key, hdbi, hraw, decode_one, hv]
  · intro hnone
    simp [LibmdbxTxM.get_by_encoded_key, hdbi, hnone]
  · intro raw hraw hv
    simp [LibmdbxTxM.get_by_encoded_key, hdbi, hraw, decode_one, hv]
  · rfl
  · rfl
  · rfl
  · rfl

/-- Helper: a successful index lookup is within bounds. -/
theorem list_get?_some_lt {α : Type} :
    ∀ (l : List α) (i : Nat) (a : α), l.get? i = some a → i < l.length := by
  intro l
  induction l with
  | nil => intro i a h; simp at h
  | cons b t ih =>
    intro i a h
    cases i with
    | zero => simp
    | succ j =>
      have := ih j a (by simpa using h)
      simpa using Nat.succ_lt_succ this

/-- Helper: reading back the slot just written. -/
theorem list_get?_set_self {α : Type} :
    ∀ (l : List α) (i : Nat) (a : α), i < l.length → (l.set i a).get? i = some a := by
  intro l
  induction l with
  | nil => intro i a h; simp at h
  | cons b t ih =>
    intro i a h
    cases i with
    | zero => rfl
    | succ j =>
      have := ih j a (by simpa using h)
      simpa using this

/-- Count of engine `open_db` calls the next `get_dbi` would make:
mirrors the branch structure of `get_dbi` — one call on a cache miss,
none otherwise. -/
def get_dbi_opens (S : TableSetM) (tx : LibmdbxTxM) (tname : String) : Nat :=
  match S.from_str tname with
  | Except.error _ => 0
  | Except.ok idx =>
    match tx.db_handles.get? idx with
    | some none => 1
    | _ => 0

/-- Value projection of a transaction operation's outcome, used to
compare cached and uncached runs observationally. -/
def resVal {α : Type} : PResult (α × LibmdbxTxM) → PResult α
  | PResult.panicked m => PResult.panicked m
  | PResult.err e => PResult.err e
  | PResult.ok (v, _) => PResult.ok v

/-- C4: within one transaction the engine table handle is opened at most
once — the first `get_dbi` for a member table resolves the handle via
`open_db` and stores it at the member's position, every later `get_dbi`
on the same table returns the cached handle with no further open (open
count 1 then 0) — and caching is observationally equivalent to not
caching: a `get_by_encoded_key` against the cached transaction returns
the same value outcome as against the uncached one. -/
theorem c4_handle_cached_once (S : TableSetM) (tx : LibmdbxTxM) (tname : String)
    (idx : Nat) (d : DBI)
    (hf : S.from_str tname = Except.ok idx)
    (hslot : tx.db_handles.get? idx = some none)
    (hopen : tx.inner.engineOpenDb tname = Except.ok d) :
    tx.get_dbi S tname =
      PResult.ok (d, { tx with db_handles := tx.db_handles.set idx (some d) }) ∧
    LibmdbxTxM.get_dbi S { tx with db_handles := tx.db_handles.set idx (some d) } tname =
      PResult.ok (d, { tx with db_handles := tx.db_handles.set idx (some d) }) ∧
    get_dbi_opens S tx tname = 1 ∧
    get_dbi_opens S { tx with db_handles := tx.db_handles.set idx (some d) } tname = 0 ∧
    (∀ (V : Type) (dec : Bytes → Option V) (key : Bytes),
      resVal (LibmdbxTxM.get_by_encoded_key S dec
        { tx with db_handles := tx.db_handles.set idx (some d) } tname key) =
      resVal (tx.get_by_encoded_key S dec tname key)) := by
  have hlt : idx < tx.db_handles.length := list_get?_some_lt _ _ _ hslot
  have hset : (tx.db_handles.set idx (some d)).get? idx = some (some d) :=
    list_get?_set_self _ _ _ (by simpa using hlt)
  have hslot2 : tx.db_handles[idx]? = some none := by
    simpa [List.get?_eq_getElem?] using hslot
  have hset2 : (tx.db_handles.set idx (some d))[idx]? = some (some d) := by
    simpa [List.get?_eq_getElem?] using hset
  have h1 : tx.get_dbi S tname =
      PResult.ok (d, { tx with db_handles := tx.db_handles.set idx (some d) }) := by
    simp [LibmdbxTxM.get_dbi, hf, hslot2, hopen]
  have h2 : LibmdbxTxM.get_dbi S
      { tx with db_handles := tx.db_handles.set idx (some d) } tname =
      PResult.ok (d, { tx with db_handles := tx.db_handles.set idx (some d) }) := by
    simp [LibmdbxTxM.get_dbi, hf, hset2]
  refine ⟨h1, h2, ?_, ?_, ?_⟩
  · simp [get_dbi_opens, hf, hslot2]
  · simp [get_dbi_opens, hf, hset2]
  · intro V dec key
    simp only [LibmdbxTxM.get_by_encoded_key, h1, h2]

/-- Witness for C4 at the scenario registry: a fresh read transaction
over the populated environment resolves the handle of
`EmptyStrategyTable` once and reuses it. -/
theorem c4_handle_cached_once_witness :
    LibmdbxTxM.get_dbi myTablesM
      { inner := env1.committed, db_handles := [none] } "EmptyStrategyTable" =
      PResult.ok (0, { inner := env1.committed, db_handles := [some 0] }) ∧
    LibmdbxTxM.get_dbi myTablesM
      { inner := env1.committed, db_handles := [some 0] } "EmptyStrategyTable" =
      PResult.ok (0, { inner := env1.committed, db_handles := [some 0] }) ∧
    get_dbi_opens myTablesM
      { inner := env1.committed, db_handles := [none] } "EmptyStrategyTable" = 1 ∧
    get_dbi_opens myTablesM
      { inner := env1.committed, db_handles := [some 0] } "EmptyStrategyTable" = 0 := by
  have h := c4_handle_cached_once myTablesM
    { inner := env1.committed, db_handles := [none] } "EmptyStrategyTable" 0 0
    rfl rfl rfl
  exact ⟨h.1, h.2.1, h.2.2.1, h.2.2.2.1⟩

/-- Helper: `find?` stays successful after appending on the right. -/
theorem find?_isSome_append {α : Type} (p : α → Bool) (l1 l2 : List α)
    (h : (l1.find? p).isSome) : ((l1 ++ l2).find? p).isSome := by
  induction l1 with
  | nil => simp [List.find?] at h
  | cons a t ih =>
    cases hp : p a with
    | true => simp [List.find?, hp]
    | false =>
      simp only [List.find?, hp] at h
      simpa [List.find?, hp] using ih h

/-- Helper: `find?` succeeds on a list ending in a matching element. -/
theorem find?_isSome_concat {α : Type} (p : α → Bool) (x : α) (hx : p x = true) :
    ∀ l : List α, ((l ++ [x]).find? p).isSome := by
  intro l
  induction l with
  | nil => simp [List.find?, hx]
  | cons a t ih =>
    cases hp : p a with
    | true => simp [List.find?, hp]
    | false => simpa [List.find?, hp] using ih

/-- Helper: a successful `create_tables` fold keeps every sub-database
that already existed. -/
theorem setCreateTablesGo_preserves :
    ∀ (names : List String) (tx tx1 : LibmdbxTxM),
      setCreateTablesGo names tx = Except.ok tx1 →
      ∀ name : String,
        (tx.inner.dbs.find? (fun e => e.1 = name)).isSome →
        (tx1.inner.dbs.find? (fun e => e.1 = name)).isSome := by
  intro names
  induction names with
  | nil =>
    intro tx tx1 h name hp
    cases h
    exact hp
  | cons n rest ih =>
    intro tx tx1 h name hp
    unfold setCreateTablesGo at h
    unfold LibmdbxTxM.create_table at h
    unfold EngineTx.engineCreateDb at h
    by_cases hex : (tx.inner.dbs.find? (fun e => e.1 = n)).isSome
    · simp only [hex, if_pos] at h
      exact ih _ _ h name hp
    · simp only [hex] at h
      cases hw : tx.inner.failWrites with
      | some e => simp [hw] at h
      | none =>
        simp only [hw, if_neg] at h
        refine ih _ _ h name ?_
        exact find?_isSome_append _ _ _ hp

/-- Helper: a successful `create_tables` fold leaves every listed table
present. -/
theorem setCreateTablesGo_creates :
    ∀ (names : List String) (tx tx1 : LibmdbxTxM),
      setCreateTablesGo names tx = Except.ok tx1 →
      ∀ n ∈ names, (tx1.inner.dbs.find? (fun e => e.1 = n)).isSome := by
  intro names
  induction names with
  | nil => intro tx tx1 h n hn; simp at hn
  | cons m rest ih =>
    intro tx tx1 h n hn
    unfold setCreateTablesGo at h
    cases hc : LibmdbxTxM.create_table tx m TableType.Table with
    | error e => rw [hc] at h; cases h
    | ok txm =>
      rw [hc] at h
      rcases List.mem_cons.mp hn with hn1 | hn2
      · subst hn1
        refine setCreateTablesGo_preserves rest txm tx1 h n ?_
        unfold LibmdbxTxM.create_table at hc
        unfold EngineTx.engineCreateDb at hc
        by_cases hex : (tx.inner.dbs.find? (fun e => e.1 = n)).isSome
        · simp only [hex, if_pos] at hc
          cases hc
          exact hex
        · simp only [hex] at hc
          cases hw : tx.inner.failWrites with
          | some e => simp [hw] at hc
          | none =>
            simp only [hw, if_neg] at hc
            cases hc
            exact find?_isSome_concat _ _ (by simp) _
      · exact ih _ _ h n hn2

/-- Helper: when every listed table already exists, the fold is a
no-op success. -/
theorem setCreateTablesGo_reuse :
    ∀ (names : List String) (tx : LibmdbxTxM),
      (∀ n ∈ names, (tx.inner.dbs.find? (fun e => e.1 = n)).isSome) →
      setCreateTablesGo names tx = Except.ok tx := by
  intro names
  induction names with
  | nil => intro tx _; rfl
  | cons m rest ih =>
    intro tx hall
    unfold setCreateTablesGo
    unfold LibmdbxTxM.create_table
    unfold EngineTx.engineCreateDb
    have hm : (tx.inner.dbs.find? (fun e => e.1 = m)).isSome := hall m (by simp)
    simp only [hm, if_pos]
    exact ih tx (fun n hn => hall n (by simp [hn]))

/-- Witness for C3 at the scenario: the found, absent and corrupt-bytes
branches of `get_by_encoded_key` on concrete transactions. -/
theorem c3_get_semantics_witness :
    LibmdbxTxM.get_by_encoded_key myTablesM thingDecompress
      { inner := env1.committed, db_handles := [none] } "EmptyStrategyTable" [100] =
      PResult.ok (some thing, { inner := env1.committed, db_handles := [some 0] }) ∧
    LibmdbxTxM.get_by_encoded_key myTablesM thingDecompress
      { inner := env1.committed, db_handles := [none] } "EmptyStrategyTable" [101] =
      PResult.ok (none, { inner := env1.committed, db_handles := [some 0] }) ∧
    LibmdbxTxM.get_by_encoded_key myTablesM thingDecompress
      { inner := { dbs := [("EmptyStrategyTable", 0, DatabaseFlags.defaultFlags)],
                   store := [((0, [100]), [9])], failWrites := none },
        db_handles := [none] } "EmptyStrategyTable" [100] =
      PResult.err DatabaseError.Decode := by
  refine ⟨?_, ?_, ?_⟩
  · exact (c3_get_semantics myTablesM thingDecompress
      { inner := env1.committed, db_handles := [none] }
      { inner := env1.committed, db_handles := [some 0] }
      "EmptyStrategyTable" [100] 0 rfl).1
      [5, 116, 111, 32, 109, 101, 0, 1220] thing rfl rfl
  · exact (c3_get_semantics myTablesM thingDecompress
      { inner := env1.committed, db_handles := [none] }
      { inner := env1.committed, db_handles := [some 0] }
      "EmptyStrategyTable" [101] 0 rfl).2.1 rfl
  · exact (c3_get_semantics myTablesM thingDecompress
      { inner := { dbs := [("EmptyStrategyTable", 0, DatabaseFlags.defaultFlags)],
                   store := [((0, [100]), [9])], failWrites := none },
        db_handles := [none] }
      { inner := { dbs := [("EmptyStrategyTable", 0, DatabaseFlags.defaultFlags)],
                   store := [((0, [100]), [9])], failWrites := none },
        db_handles := [some 0] }
      "EmptyStrategyTable" [100] 0 rfl).2.2.1 [9] rfl rfl

/-- C5: `create_tables` is idempotent — a second `provider`-level run
against an environment in which all the set's sub-databases already
exist succeeds with no error and leaves the committed table set
unchanged — and a successful run creates every member inside the single
write transaction it was given (the run is one `new_rw_tx`, one fold,
one `commit`; an error anywhere yields `Err` without a commit, so the
caller's committed state is untouched). -/
theorem c5_create_tables_idempotent (S : TableSetM) (env envOut : DatabaseEnvM)
    (h1 : provider_create_tables S env = Except.ok envOut) :
    provider_create_tables S envOut = Except.ok envOut ∧
    (∀ n ∈ S.tableNames, (envOut.committed.dbs.find? (fun e => e.1 = n)).isSome) := by
  unfold provider_create_tables at h1
  cases hfb : env.failBegin with
  | some e => simp [new_rw_tx, hfb] at h1
  | none =>
    simp only [new_rw_tx, hfb] at h1
    cases hgo : setCreateTablesGo S.tableNames
        { inner := env.committed, db_handles := List.replicate S.numTables none } with
    | error e => simp [TableSetM.create_tables, hgo] at h1
    | ok tx1 =>
      simp only [TableSetM.create_tables, hgo] at h1
      cases hfc : env.failCommit with
      | some e => simp [commitTx, hfc] at h1
      | none =>
        simp only [commitTx, hfc, Except.ok.injEq] at h1
        have hall := setCreateTablesGo_creates S.tableNames _ tx1 hgo
        subst h1
        constructor
        · unfold provider_create_tables
          simp only [new_rw_tx, hfb]
          have hre := setCreateTablesGo_reuse S.tableNames
            { inner := tx1.inner, db_handles := List.replicate S.numTables none }
            (fun n hn => hall n hn)
          simp only [TableSetM.create_tables]
          rw [hre]
          simp [commitTx, hfc]
        · exact hall

/-- Witness for C5: materializing `MyTables` over the empty environment
yields `env0`, and a second run over `env0` succeeds returning `env0`
with the table present. -/
theorem c5_create_tables_idempotent_witness :
    provider_create_tables myTablesM envEmpty = Except.ok env0 ∧
    provider_create_tables myTablesM env0 = Except.ok env0 ∧
    ((env0.committed.dbs.find? (fun e => e.1 = "EmptyStrategyTable")).isSome = true) := by
  have h := c5_create_tables_idempotent myTablesM envEmpty env0 rfl
  exact ⟨rfl, h.1, h.2 "EmptyStrategyTable" (by simp [myTablesM])⟩

/-- Transaction whose engine rejects write operations, used to exercise
the write-error paths. -/
def txFail : LibmdbxTxM :=
  { inner := { dbs := [("EmptyStrategyTable", 0, DatabaseFlags.defaultFlags)],
               store := [], failWrites := some 5 },
    db_handles := [none] }

/-- C6 counterexample: a failing `delete` does not carry the structured
write context the claim asserts — it surfaces as `DatabaseError::Delete`
with only the engine info, not as a `DatabaseWriteError` with operation
kind, table name and key. -/
theorem c6_delete_context_counterexample :
    LibmdbxTxM.delete myTablesM u8enc thingCompress txFail "EmptyStrategyTable"
      (100 : Fin 256) none = PResult.err (DatabaseError.Delete 5) ∧
    ¬ ∃ wr : DatabaseWriteError,
      LibmdbxTxM.delete myTablesM u8enc thingCompress txFail "EmptyStrategyTable"
        (100 : Fin 256) none = PResult.err (DatabaseError.Write wr) := by
  refine ⟨rfl, ?_⟩
  rintro ⟨wr, h⟩
  have h0 : LibmdbxTxM.delete myTablesM u8enc thingCompress txFail "EmptyStrategyTable"
      (100 : Fin 256) none = PResult.err (DatabaseError.Delete 5) := rfl
  rw [h0] at h
  simp at h

/-- C6 as amended: when the engine rejects a write, `put` returns a
`DatabaseWriteError` carrying the operation kind `Put`, the table name
and the encoded key (the error type has no field for the value), while
`delete` returns only `DatabaseError::Delete` with the engine info —
no table name or key. -/
theorem c6_write_error_context {K V : Type} (S : TableSetM) (encodeKey : K → Bytes)
    (compressVal : V → Bytes) (tx tx1 : LibmdbxTxM) (tname : String)
    (k : K) (v : V) (dbi : DBI) (e : EngineErr)
    (hdbi : tx.get_dbi S tname = PResult.ok (dbi, tx1))
    (hfail : tx1.inner.failWrites = some e) :
    LibmdbxTxM.put S encodeKey compressVal tx tname k v =
      PResult.err (DatabaseError.Write
        { info := e, operation := DatabaseWriteOperation.Put,
          table_name := tname, key := encodeKey k }) ∧
    LibmdbxTxM.delete S encodeKey compressVal tx tname k (none : Option V) =
      PResult.err (DatabaseError.Delete e) := by
  constructor
  · simp [LibmdbxTxM.put, hdbi, EngineTx.enginePut, hfail]
  · simp [LibmdbxTxM.delete, hdbi, EngineTx.engineDel, hfail]

/-- Witness for C6's amended theorem at the failing transaction. -/
theorem c6_write_error_context_witness :
    LibmdbxTxM.put myTablesM u8enc thingCompress txFail "EmptyStrategyTable"
      (100 : Fin 256) thing =
      PResult.err (DatabaseError.Write
        { info := 5, operation := DatabaseWriteOperation.Put,
          table_name := "EmptyStrategyTable", key := [100] }) ∧
    LibmdbxTxM.delete myTablesM u8enc thingCompress txFail "EmptyStrategyTable"
      (100 : Fin 256) (none : Option ThingM) =
      PResult.err (DatabaseError.Delete 5) := by
  have h := c6_write_error_context myTablesM u8enc thingCompress txFail
    { inner := txFail.inner, db_handles := [some 0] } "EmptyStrategyTable"
    (100 : Fin 256) thing 0 5 rfl rfl
  exact ⟨h.1, h.2⟩

/-- Helper: the name lookup fails exactly on non-members, for any start
index of the fold. -/
theorem findIdx?_name_none_iff_aux (s : String) :
    ∀ (l : List String) (i : Nat), l.findIdx? (fun n => n = s) i = none ↔ s ∉ l := by
  intro l
  induction l with
  | nil => intro i; simp
  | cons a t ih =>
    intro i
    by_cases ha : a = s
    · simp [List.findIdx?_cons, ha]
    · rw [List.findIdx?_cons, if_neg (by simpa using ha)]
      simp only [List.mem_cons]
      rw [ih (i + 1)]
      constructor
      · intro h hin
        rcases hin with h1 | h2
        · exact ha h1.symm
        · exact h h2
      · intro h hin
        exact h (Or.inr hin)

/-- Helper: the generated `FromStr` lookup fails exactly on non-members. -/
theorem findIdx?_name_none_iff (l : List String) (s : String) :
    l.findIdx? (fun n => n = s) = none ↔ s ∉ l :=
  findIdx?_name_none_iff_aux s l 0

/-- C7 counterexample: a typed operation on a table type whose name is
not a member of the transaction's table set panics (the `expect` inside
`get_dbi` fires) instead of returning an `UnknownTable` /
`DatabaseError` error value. -/
theorem c7_unknown_table_counterexample :
    LibmdbxTxM.get_dbi myTablesM
      { inner := env0.committed, db_handles := [none] } "Missing" =
      PResult.panicked "Requested table should be part of Tables." ∧
    ¬ ∃ e : DatabaseError,
      LibmdbxTxM.get_dbi myTablesM
        { inner := env0.committed, db_handles := [none] } "Missing" =
        PResult.err e := by
  refine ⟨rfl, ?_⟩
  rintro ⟨e, h⟩
  have h0 : LibmdbxTxM.get_dbi myTablesM
      { inner := env0.committed, db_handles := [none] } "Missing" =
      PResult.panicked "Requested table should be part of Tables." := rfl
  rw [h0] at h
  simp at h

/-- C7 as amended: the generated `FromStr` itself reports the unknown
table as `Err("Unknown table")`, but `get_dbi` — and hence every typed
operation routed through it — unwraps that result with `expect`, so an
unknown table panics instead of surfacing as a returned error value; an
engine table-handle open failure, by contrast, is returned as
`DatabaseError::InitCursor`. -/
theorem c7_unknown_table_panics (S : TableSetM) (tx : LibmdbxTxM) (tname : String)
    (hmem : tname ∉ S.tableNames) :
    S.from_str tname = Except.error "Unknown table" ∧
    tx.get_dbi S tname =
      PResult.panicked "Requested table should be part of Tables." ∧
    (∀ (V : Type) (dec : Bytes → Option V) (key : Bytes),
      tx.get_by_encoded_key S dec tname key =
        PResult.panicked "Requested table should be part of Tables.") ∧
    (∀ (tname2 : String) (idx : Nat) (e : EngineErr),
      S.from_str tname2 = Except.ok idx →
      tx.db_handles.get? idx = some none →
      tx.inner.engineOpenDb tname2 = Except.error e →
      tx.get_dbi S tname2 = PResult.err (DatabaseError.InitCursor e)) := by
  have hf : S.from_str tname = Except.error "Unknown table" := by
    unfold TableSetM.from_str
    rw [(findIdx?_name_none_iff S.tableNames tname).mpr hmem]
  have hg : tx.get_dbi S tname =
      PResult.panicked "Requested table should be part of Tables." := by
    simp [LibmdbxTxM.get_dbi, hf]
  refine ⟨hf, hg, ?_, ?_⟩
  · intro V dec key
    simp [LibmdbxTxM.get_by_encoded_key, hg]
  · intro tname2 idx e hf2 hslot hopen
    have hslot2 : tx.db_handles[idx]? = some none := by
      simpa [List.get?_eq_getElem?] using hslot
    simp [LibmdbxTxM.get_dbi, hf2, hslot2, hopen]

/-- Witness for C7's amended theorem at the scenario registry and the
non-member name "Missing"; the open-failure branch is exercised against
an engine state lacking the sub-database. -/
theorem c7_unknown_table_panics_witness :
    TableSetM.from_str myTablesM "Missing" = Except.error "Unknown table" ∧
    LibmdbxTxM.get_dbi myTablesM
      { inner := env0.committed, db_handles := [none] } "Missing" =
      PResult.panicked "Requested table should be part of Tables." ∧
    LibmdbxTxM.get_dbi myTablesM
      { inner := envEmpty.committed, db_handles := [none] } "EmptyStrategyTable" =
      PResult.err (DatabaseError.InitCursor 0) := by
  have h := c7_unknown_table_panics myTablesM
    { inner := env0.committed, db_handles := [none] } "Missing" (by simp [myTablesM])
  have h2 := c7_unknown_table_panics myTablesM
    { inner := envEmpty.committed, db_handles := [none] } "Missing" (by simp [myTablesM])
  exact ⟨h.1, h.2.1, h2.2.2.2 "EmptyStrategyTable" 0 0 rfl rfl rfl⟩

/-- C8 counterexample: the `db_table!` declaration surface cannot bind a
duplicate-sorted table — its single macro arm hard-codes
`DUPSORT = false` and table type `Table`, so no declaration input yields
the duplicate-sort flag. -/
theorem c8_dup_flag_counterexample :
    (dbTableDecl "EmptyStrategyTable").dupsort = false ∧
    (dbTableDecl "EmptyStrategyTable").tableType = TableType.Table ∧
    ¬ ∃ n : String, (dbTableDecl n).dupsort = true := by
  refine ⟨rfl, rfl, ?_⟩
  rintro ⟨n, h⟩
  simp [dbTableDecl] at h

/-- C8 as amended: `create_table` does map the declared table type to
the engine creation flags — `DUP_SORT` for a duplicate-sorted table and
the default flags for a plain one — but the `db_table!` declaration
surface always binds the flag to plain (`DUPSORT = false`,
`TableType::Table`), so only plain tables can be declared through it. -/
theorem c8_create_flags (tx : LibmdbxTxM) (tname : String)
    (habs : (tx.inner.dbs.find? (fun e => e.1 = tname)).isSome = false)
    (hw : tx.inner.failWrites = none) :
    tx.create_table tname TableType.DupSort =
      Except.ok { tx with inner := { tx.inner with
        dbs := tx.inner.dbs ++ [(tname, tx.inner.dbs.length, DatabaseFlags.DUP_SORT)] } } ∧
    tx.create_table tname TableType.Table =
      Except.ok { tx with inner := { tx.inner with
        dbs := tx.inner.dbs ++ [(tname, tx.inner.dbs.length, DatabaseFlags.defaultFlags)] } } ∧
    (∀ n : String,
      dbTableDecl n = { name := n, dupsort := false, tableType := TableType.Table }) := by
  refine ⟨?_, ?_, fun n => rfl⟩
  · simp [LibmdbxTxM.create_table, EngineTx.engineCreateDb, habs, hw]
  · simp [LibmdbxTxM.create_table, EngineTx.engineCreateDb, habs, hw]

/-- Witness for C8's amended theorem: creating a fresh duplicate-sorted
and a fresh plain sub-database over the empty engine state. -/
theorem c8_create_flags_witness :
    LibmdbxTxM.create_table
      { inner := envEmpty.committed, db_handles := [none] } "D" TableType.DupSort =
      Except.ok { inner := { dbs := [("D", 0, DatabaseFlags.DUP_SORT)],
                             store := [], failWrites := none },
                  db_handles := [none] } ∧
    LibmdbxTxM.create_table
      { inner := envEmpty.committed, db_handles := [none] } "P" TableType.Table =
      Except.ok { inner := { dbs := [("P", 0, DatabaseFlags.defaultFlags)],
                             store := [], failWrites := none },
                  db_handles := [none] } := by
  have hd := c8_create_flags
    { inner := envEmpty.committed, db_handles := [none] } "D" rfl rfl
  have hp := c8_create_flags
    { inner := envEmpty.committed, db_handles := [none] } "P" rfl rfl
  exact ⟨hd.1, hp.2.1⟩

/-- C9: `provider.write` opens exactly one write transaction, invokes
the closure with it, commits when the closure returns and wraps the
closure's result in `Ok`; a begin failure surfaces as `InitTx` and a
commit failure as `Commit`, each leaving the committed state untouched;
and `write_async` behaves identically. -/
theorem c9_write_open_invoke_commit {R : Type} (S : TableSetM) (env : DatabaseEnvM)
    (f : LibmdbxTxM → R × LibmdbxTxM) :
    (provider_write S env f).txBegun = 1 ∧
    provider_write_async S env f = provider_write S env f ∧
    (∀ e : EngineErr, env.failBegin = some e →
      provider_write S env f =
        { result := Except.error (DatabaseError.InitTx e), env := env, txBegun := 1 }) ∧
    (∀ tx0 : LibmdbxTxM, new_rw_tx S env = Except.ok tx0 → env.failCommit = none →
      provider_write S env f =
        { result := Except.ok (f tx0).1,
          env := { env with committed := ((f tx0).2).inner }, txBegun := 1 }) ∧
    (∀ (tx0 : LibmdbxTxM) (e : EngineErr),
      new_rw_tx S env = Except.ok tx0 → env.failCommit = some e →
      provider_write S env f =
        { result := Except.error (DatabaseError.Commit e), env := env, txBegun := 1 }) := by
  refine ⟨?_, rfl, ?_, ?_, ?_⟩
  · cases hb : new_rw_tx S env with
    | error e => simp [provider_write, hb]
    | ok tx0 =>
      cases hc : commitTx env ((f tx0).2) with
      | error e => simp [provider_write, hb, hc]
      | ok p => simp [provider_write, hb, hc]
  · intro e he
    simp [provider_write, new_rw_tx, he]
  · intro tx0 hb hc
    simp [provider_write, hb, commitTx, hc]
  · intro tx0 e hb hc
    simp [provider_write, hb, commitTx, hc]

/-- Witness for C9 at the scenario write, plus the begin-failure and
commit-failure branches at environments that reject them. -/
theorem c9_write_open_invoke_commit_witness :
    provider_write myTablesM env0 putClosure =
      { result := Except.ok
          (putClosure { inner := env0.committed, db_handles := [none] }).1,
        env := { env0 with committed :=
          ((putClosure { inner := env0.committed, db_handles := [none] }).2).inner },
        txBegun := 1 } ∧
    provider_write_async myTablesM env0 putClosure =
      provider_write myTablesM env0 putClosure ∧
    provider_write myTablesM { env0 with failBegin := some 3 } putClosure =
      { result := Except.error (DatabaseError.InitTx 3),
        env := { env0 with failBegin := some 3 }, txBegun := 1 } ∧
    provider_write myTablesM { env0 with failCommit := some 4 } putClosure =
      { result := Except.error (DatabaseError.Commit 4),
        env := { env0 with failCommit := some 4 }, txBegun := 1 } :=
  ⟨(c9_write_open_invoke_commit myTablesM env0 putClosure).2.2.2.1
      { inner := env0.committed, db_handles := [none] } rfl rfl,
   (c9_write_open_invoke_commit myTablesM env0 putClosure).2.1,
   (c9_write_open_invoke_commit myTablesM
      { env0 with failBegin := some 3 } putClosure).2.2.1 3 rfl,
   (c9_write_open_invoke_commit myTablesM
      { env0 with failCommit := some 4 } putClosure).2.2.2.2
      { inner := env0.committed, db_handles := [none] } 4 rfl rfl⟩

/-- C10: `provider.write` commits unconditionally — when the closure's
returned value denotes a failure, there is no abort path: the writes the
closure performed are still committed, and the provider returns
`Ok(that error value)` whenever the engine commit succeeds; likewise for
`write_async`. -/
theorem c10_commit_despite_closure_error {E A : Type} (S : TableSetM)
    (env : DatabaseEnvM) (f : LibmdbxTxM → Except E A × LibmdbxTxM)
    (tx0 : LibmdbxTxM) (ev : E)
    (hb : new_rw_tx S env = Except.ok tx0) (hc : env.failCommit = none)
    (herr : (f tx0).1 = Except.error ev) :
    provider_write S env f =
      { result := Except.ok (Except.error ev),
        env := { env with committed := ((f tx0).2).inner }, txBegun := 1 } ∧
    provider_write_async S env f =
      { result := Except.ok (Except.error ev),
        env := { env with committed := ((f tx0).2).inner }, txBegun := 1 } ∧
    (provider_write S env f).env.committed = ((f tx0).2).inner := by
  have h1 : provider_write S env f =
      { result := Except.ok (Except.error ev),
        env := { env with committed := ((f tx0).2).inner }, txBegun := 1 } := by
    simp [provider_write, hb, commitTx, hc, herr]
  exact ⟨h1, h1, by rw [h1]⟩

/-- Closure that performs the scenario put and then reports a
closure-level failure as its return value. -/
def putThenFail (tx : LibmdbxTxM) : Except Nat Unit × LibmdbxTxM :=
  match LibmdbxTxM.put myTablesM u8enc thingCompress tx "EmptyStrategyTable"
      (100 : Fin 256) thing with
  | PResult.ok tx1 => (Except.error 42, tx1)
  | PResult.err _ => (Except.error 42, tx)
  | PResult.panicked _ => (Except.error 42, tx)

/-- Witness for C10: the closure's put is committed even though the
closure returned an error value, and the provider returns `Ok(Err 42)`. -/
theorem c10_commit_despite_closure_error_witness :
    provider_write myTablesM env0 putThenFail =
      { result := Except.ok (Except.error 42),
        env := { env0 with committed :=
          ((putThenFail { inner := env0.committed, db_handles := [none] }).2).inner },
        txBegun := 1 } ∧
    (provider_write myTablesM env0 putThenFail).env.committed.store =
      [((0, [100]), [5, 116, 111, 32, 109, 101, 0, 1220])] :=
  ⟨(c10_commit_despite_closure_error myTablesM env0 putThenFail
      { inner := env0.committed, db_handles := [none] } 42 rfl rfl rfl).1, rfl⟩
